import Mathlib

/-!
# Output module frontend (output.c)

A shallow embedding of the dispatcher and of the ALSA volume path of `output.c`.

* The process-wide statics (`mixer_max`, `mixer_handle`, `mixer_sid`, `mixer_elem`,
  `output_module`) are the fields of `State`; every function takes the state and returns
  the new one next to its C result.
* The backend behind the hooks is a parameter: a type `W` of backend worlds, every hook a
  function of the world. Each hook invocation and each ALSA primitive call is also
  appended to `State.trace`, so that "this hook was not invoked" is a statement about the
  trace.
* `long` is the 64-bit integer of an LP64 platform: the `long` arithmetic of
  `get_alsa_volume` wraps modulo `2^64` (`wrap_long`).
* A `float` or `double` value is the rational it denotes. Every floating operation is
  rounded to its type as IEEE 754 prescribes (nearest, ties to even; `to_float` for
  binary32, `to_double` for binary64), each operation on its own. Infinities and NaN are
  not represented: the statements below are restricted to ranges in which no operation
  leaves the finite range. The two `<math.h>` functions the file calls (`log10`, `pow`)
  are the fields of `Libm`.
* Conversions from a floating value to an integer type truncate toward zero, as in C.
* Logging calls are omitted.
-/

namespace Output

/-! ## External collaborators -/

/-- The hooks of a backend descriptor, used to label trace entries. -/
inductive Hook
  | init | add_options | set_uri | set_next_uri | play | pause | stop | seek
  | get_position | get_volume | set_volume | get_mute | set_mute
  deriving DecidableEq, Repr

/-- The ALSA mixer primitives `output.c` calls, used to label trace entries. -/
inductive AlsaCall
  | mixer_open | mixer_attach | selem_register | mixer_load | selem_id_alloca
  | selem_id_set_index | selem_id_set_name (mixer_name : String) | find_selem
  | get_playback_volume_range | set_playback_volume_all (volume : Int)
  | get_playback_volume | mixer_close
  deriving DecidableEq, Repr

/-- One entry of the call trace: a backend hook invocation (with the integer it returned,
`none` for the `void` hooks) or an ALSA primitive call. -/
inductive Event
  | hook (shortname : String) (h : Hook) (result : Option Int)
  | alsa (c : AlsaCall)
  deriving DecidableEq, Repr

/-- Modelled from the spec: `struct output_module` of `output_module.h`, which is not among
the sources. A short name, a description, and the thirteen optional hooks of the
BackendDescriptor (`none` is a NULL function pointer). The argument lists are those of the
calls in `output.c`; callback arguments are left out, and a hook with output parameters
returns what it stores in them (`none` when it stores nothing). -/
structure output_module (W : Type) where
  shortname : String
  description : String
  add_options : Option (W → Int × W) := none
  init : Option (W → Int × W) := none
  set_uri : Option (String → W → W) := none
  set_next_uri : Option (String → W → W) := none
  play : Option (W → Int × W) := none
  stop : Option (W → Int × W) := none
  pause : Option (W → Int × W) := none
  seek : Option (Int → W → Int × W) := none
  get_position : Option (W → (Int × Option (Int × Int)) × W) := none
  get_volume : Option (W → (Int × Option ℚ) × W) := none
  set_volume : Option (ℚ → W → Int × W) := none
  get_mute : Option (W → (Int × Option Int) × W) := none
  set_mute : Option (Int → W → Int × W) := none

/-- The sound library as `output.c` sees it: whether `snd_mixer_open` stores a handle,
whether the element id allocation yields a pointer, the playback range `(min, max)` of the
element `snd_mixer_find_selem` finds for a name (`none`: no such element), and
`snd_mixer_selem_set_playback_volume_all`, which from the raw volume the element holds and
the requested one gives its return code and the raw volume held afterwards. -/
structure Alsa where
  mixer_open : Bool
  selem_id_alloca : Bool
  find_selem : String → Option (Int × Int)
  set_playback_volume_all : Int → Int → Int × Int

/-- The two `<math.h>` functions the volume conversion calls. -/
structure Libm where
  log10 : ℚ → ℚ
  pow : ℚ → ℚ → ℚ

/-- What the development assumes of `pow`: `pow(10, 0)` is 1, no value of `pow(10, x)` is
negative, `pow(10, x)` is at most 1 for `x <= 0` and at most 15/16 for `x <= -1/32`
(`10^(-1/32)` is 0.9306). -/
structure LibmSpec (L : Libm) : Prop where
  pow_zero : L.pow 10 0 = 1
  pow_nonneg : ∀ x : ℚ, 0 ≤ L.pow 10 x
  pow_le_one : ∀ x : ℚ, x ≤ 0 → L.pow 10 x ≤ 1
  pow_le : ∀ x : ℚ, x ≤ -1 / 32 → L.pow 10 x ≤ 15 / 16

/-- A concrete math library for worked examples: the integer part of the logarithm and the
power at the integer part of the exponent. Both are exact at the powers of ten. -/
def libm0 : Libm where
  log10 := fun q => ((Int.log 10 q : Int) : ℚ)
  pow := fun b x => b ^ ⌊x⌋

/-! ## Machine arithmetic -/

/-- The nearest integer to a rational, the even one of the two at a tie. -/
def round_even (r : ℚ) : Int :=
  if 2 * Int.fract r < 1 then ⌊r⌋
  else if 1 < 2 * Int.fract r then ⌊r⌋ + 1
  else if ⌊r⌋ % 2 = 0 then ⌊r⌋ else ⌊r⌋ + 1

/-- The binary exponent at which `q` is rounded in a format of minimal exponent `emin`:
the exponent of its binade, or `emin` in the subnormal range. -/
def fp_exponent (emin : Int) (q : ℚ) : Int :=
  max (Int.log 2 |q|) emin

/-- The spacing of the values of a binary format with `prec` significand bits around `q`. -/
def fp_ulp (prec : Nat) (emin : Int) (q : ℚ) : ℚ :=
  2 ^ (fp_exponent emin q - ((prec : Int) - 1))

/-- IEEE 754 rounding of `q` (to nearest, ties to even) into the binary format with `prec`
significand bits and minimal exponent `emin`, subnormal values included. -/
def fp_round (prec : Nat) (emin : Int) (q : ℚ) : ℚ :=
  (round_even (q / fp_ulp prec emin q) : ℚ) * fp_ulp prec emin q

/-- Rounding to `float` (binary32). -/
def to_float (q : ℚ) : ℚ :=
  fp_round 24 (-126) q

/-- Rounding to `double` (binary64). -/
def to_double (q : ℚ) : ℚ :=
  fp_round 53 (-1022) q

/-- The value a 64-bit `long` holds after an arithmetic result `x`: `x` itself when it
fits, otherwise `x` reduced modulo `2^64` into the range of the type. -/
def wrap_long (x : Int) : Int :=
  (x + 2 ^ 63) % 2 ^ 64 - 2 ^ 63

/-- C conversion of a floating value to `int` or `long`: the fraction is discarded
(truncation toward zero). -/
def float_to_int (q : ℚ) : Int :=
  if 0 ≤ q then ⌊q⌋ else ⌈q⌉

/-! ## Process state -/

/-- The statics of `output.c`, the raw volume the mixer element currently reports, the
backend world, and the call trace. -/
structure State (W : Type) where
  mixer_max : Int := 0
  mixer_handle : Bool := false
  mixer_sid : Bool := false
  mixer_elem : Bool := false
  output_module : Option (Output.output_module W) := none
  hw_volume : Int := 0
  world : W
  trace : List Event := []

/-- Append entries to the call trace. -/
def State.log {W : Type} (s : State W) (es : List Event) : State W :=
  { s with trace := s.trace ++ es }

/-- Invocation of an `int` hook of descriptor `m`: the world moves on and the call is
recorded with the value returned. -/
def invoke {W : Type} (s : State W) (m : output_module W) (h : Hook) (f : W → Int × W) :
    Int × State W :=
  ((f s.world).1,
    { s with world := (f s.world).2,
             trace := s.trace ++ [Event.hook m.shortname h (some (f s.world).1)] })

/-- Invocation of an `int` hook with output parameters. -/
def invoke_out {W α : Type} (s : State W) (m : output_module W) (h : Hook)
    (f : W → (Int × Option α) × W) : (Int × Option α) × State W :=
  ((f s.world).1,
    { s with world := (f s.world).2,
             trace := s.trace ++ [Event.hook m.shortname h (some (f s.world).1.1)] })

/-- Invocation of a `void` hook. -/
def invoke_void {W : Type} (s : State W) (m : output_module W) (h : Hook) (f : W → W) :
    State W :=
  { s with world := f s.world, trace := s.trace ++ [Event.hook m.shortname h none] }

/-! ## ALSA volume control -/

/-- `init_alsa`: clears `mixer_max`, returns -1 at once without a mixer name, otherwise
opens the mixer, looks the element up and keeps the maximum of its playback range. -/
def init_alsa {W : Type} (A : Alsa) (mixer_name : Option String) (s : State W) :
    Int × State W :=
  let s0 : State W := { s with mixer_max := 0 }
  match mixer_name with
  | none => (-1, s0)
  | some name =>
    let s1 : State W :=
      { s0 with mixer_handle := s0.mixer_handle || A.mixer_open,
                trace := s0.trace ++ [Event.alsa AlsaCall.mixer_open] }
    if s1.mixer_handle = false then (-1, s1)
    else
      let s2 : State W :=
        { s1 with mixer_sid := A.selem_id_alloca,
                  trace := s1.trace ++ [Event.alsa AlsaCall.mixer_attach,
                    Event.alsa AlsaCall.selem_register, Event.alsa AlsaCall.mixer_load,
                    Event.alsa AlsaCall.selem_id_alloca] }
      if s2.mixer_sid = false then (-1, s2)
      else
        let s3 : State W :=
          { s2 with mixer_elem := (A.find_selem name).isSome,
                    trace := s2.trace ++ [Event.alsa AlsaCall.selem_id_set_index,
                      Event.alsa (AlsaCall.selem_id_set_name name),
                      Event.alsa AlsaCall.find_selem] }
        match A.find_selem name with
        | none => (-1, s3)
        | some range =>
          (0, { s3 with mixer_max := range.2,
                        trace := s3.trace ++ [Event.alsa AlsaCall.get_playback_volume_range] })

/-- `close_alsa`. -/
def close_alsa {W : Type} (s : State W) : State W :=
  s.log [Event.alsa AlsaCall.mixer_close]

/-- The local `db` of `set_alsa_volume`: `20*log10(value)`, the product formed in `double`
and stored in a `float`. -/
def set_alsa_db (L : Libm) (value : ℚ) : ℚ :=
  to_float (to_double (20 * L.log10 value))

/-- The `float` value of `(db+60)*mixer_max/60` in `set_alsa_volume`: the sum, the
conversion of `mixer_max`, the product and the quotient are each rounded to `float`
(60 is a `float` as it stands). -/
def set_alsa_quantity (L : Libm) (mixer_max : Int) (value : ℚ) : ℚ :=
  to_float (to_float (to_float (set_alsa_db L value + 60) * to_float (mixer_max : ℚ)) / 60)

/-- The local `volume` of `set_alsa_volume`: the quantity above converted to `long`. -/
def set_alsa_raw (L : Libm) (mixer_max : Int) (value : ℚ) : Int :=
  float_to_int (set_alsa_quantity L mixer_max value)

/-- `set_alsa_volume`: 0 when the mixer is unusable; otherwise hands the raw volume to the
mixer and returns 0 when that call returns 0 and 1 when it does not. -/
def set_alsa_volume {W : Type} (L : Libm) (A : Alsa) (value : ℚ) (s : State W) :
    Int × State W :=
  if s.mixer_max ≤ 0 then (0, s)
  else
    let volume := set_alsa_raw L s.mixer_max value
    let r := A.set_playback_volume_all s.hw_volume volume
    let s1 : State W :=
      { s with hw_volume := r.2,
               trace := s.trace ++ [Event.alsa (AlsaCall.set_playback_volume_all volume)] }
    if r.1 = 0 then (0, s1) else (1, s1)

/-- The value of `value*60/mixer_max-60` in `get_alsa_volume`: all operands are `long`, so
the product and the difference wrap and the division is the integer division of C. -/
def get_alsa_db (mixer_max value : Int) : Int :=
  wrap_long ((wrap_long (value * 60)).tdiv mixer_max - 60)

/-- `get_alsa_volume`: 0 when the mixer is unusable; otherwise reads the raw volume and
converts it back, 0 at or below -60 dB. The integer `db` is stored in a `float`, `db/20`
is a `float` division, and the `double` result of `pow` is returned as a `float`. -/
def get_alsa_volume {W : Type} (L : Libm) (s : State W) : ℚ × State W :=
  if s.mixer_max ≤ 0 then (0, s)
  else
    let value := s.hw_volume
    let s1 : State W := s.log [Event.alsa AlsaCall.get_playback_volume]
    let db : ℚ := to_float (get_alsa_db s.mixer_max value : Int)
    if db ≤ -60 then (0, s1) else (to_float (L.pow 10 (to_float (db / 20))), s1)

/-! ## Dispatcher -/

/-- The search loop of `output_init`: the first descriptor of the registry whose short name
compares equal to the requested one. -/
def find_module {W : Type} (modules : List (output_module W)) (shortname : String) :
    Option (output_module W) :=
  match modules with
  | [] => none
  | m :: rest => if m.shortname = shortname then some m else find_module rest shortname

/-- `output_init` over the registry `modules` (the static array of the source, whose
entries come from headers outside this file). -/
def output_init {W : Type} (A : Alsa) (modules : List (output_module W))
    (shortname : Option String) (alsa_mixer : Option String) (s : State W) :
    Int × State W :=
  let s1 := (init_alsa A alsa_mixer s).2
  if modules.length = 0 then (-1, s1)
  else
    let s2 : State W :=
      match shortname with
      | none => { s1 with output_module := modules.head? }
      | some name =>
        match find_module modules name with
        | some m => { s1 with output_module := some m }
        | none => s1
    match s2.output_module with
    | none => (-1, s2)
    | some m =>
      match m.init with
      | some f => invoke s2 m Hook.init f
      | none => (0, s2)

/-- `output_add_options`: the loop over the registry, leaving at the first nonzero
result. -/
def output_add_options {W : Type} (modules : List (output_module W)) (s : State W) :
    Int × State W :=
  match modules with
  | [] => (0, s)
  | m :: rest =>
    match m.add_options with
    | some f =>
      let r := invoke s m Hook.add_options f
      if r.1 ≠ 0 then r else output_add_options rest r.2
    | none => output_add_options rest s

/-- `output_set_uri`. -/
def output_set_uri {W : Type} (uri : String) (s : State W) : State W :=
  match s.output_module with
  | some m =>
    match m.set_uri with
    | some f => invoke_void s m Hook.set_uri (f uri)
    | none => s
  | none => s

/-- `output_set_next_uri`. -/
def output_set_next_uri {W : Type} (uri : String) (s : State W) : State W :=
  match s.output_module with
  | some m =>
    match m.set_next_uri with
    | some f => invoke_void s m Hook.set_next_uri (f uri)
    | none => s
  | none => s

/-- `output_play`. -/
def output_play {W : Type} (s : State W) : Int × State W :=
  match s.output_module with
  | some m =>
    match m.play with
    | some f => invoke s m Hook.play f
    | none => (-1, s)
  | none => (-1, s)

/-- `output_pause`. -/
def output_pause {W : Type} (s : State W) : Int × State W :=
  match s.output_module with
  | some m =>
    match m.pause with
    | some f => invoke s m Hook.pause f
    | none => (-1, s)
  | none => (-1, s)

/-- `output_stop`. -/
def output_stop {W : Type} (s : State W) : Int × State W :=
  match s.output_module with
  | some m =>
    match m.stop with
    | some f => invoke s m Hook.stop f
    | none => (-1, s)
  | none => (-1, s)

/-- `output_seek`. -/
def output_seek {W : Type} (position_nanos : Int) (s : State W) : Int × State W :=
  match s.output_module with
  | some m =>
    match m.seek with
    | some f => invoke s m Hook.seek (f position_nanos)
    | none => (-1, s)
  | none => (-1, s)

/-- `output_get_position`. -/
def output_get_position {W : Type} (s : State W) :
    (Int × Option (Int × Int)) × State W :=
  match s.output_module with
  | some m =>
    match m.get_position with
    | some f => invoke_out s m Hook.get_position f
    | none => ((-1, none), s)
  | none => ((-1, none), s)

/-- `output_get_volume`: the result and what is stored through the `value` pointer. -/
def output_get_volume {W : Type} (L : Libm) (s : State W) : (Int × Option ℚ) × State W :=
  let r := get_alsa_volume L s
  let vol : ℚ := r.1
  if vol ≥ 0 then ((float_to_int vol, none), r.2)
  else
    match r.2.output_module with
    | some m =>
      match m.get_volume with
      | some f => invoke_out r.2 m Hook.get_volume f
      | none => ((-1, none), r.2)
    | none => ((-1, none), r.2)

/-- `output_set_volume`. -/
def output_set_volume {W : Type} (L : Libm) (A : Alsa) (value : ℚ) (s : State W) :
    Int × State W :=
  let r := set_alsa_volume L A value s
  let vol : ℚ := (r.1 : Int)
  if vol ≥ 0 then (float_to_int vol, r.2)
  else
    match r.2.output_module with
    | some m =>
      match m.set_volume with
      | some f => invoke r.2 m Hook.set_volume (f value)
      | none => (-1, r.2)
    | none => (-1, r.2)

/-- `output_get_mute`. -/
def output_get_mute {W : Type} (s : State W) : (Int × Option Int) × State W :=
  match s.output_module with
  | some m =>
    match m.get_mute with
    | some f => invoke_out s m Hook.get_mute f
    | none => ((-1, none), s)
  | none => ((-1, none), s)

/-- `output_set_mute`. -/
def output_set_mute {W : Type} (value : Int) (s : State W) : Int × State W :=
  match s.output_module with
  | some m =>
    match m.set_mute with
    | some f => invoke s m Hook.set_mute (f value)
    | none => (-1, s)
  | none => (-1, s)

/-! ## Worked configurations -/

/-- A sound library in which every setup step succeeds, every element has the playback
range `(0, 1000)`, and the element stores whatever raw volume it is handed. -/
def alsa0 : Alsa where
  mixer_open := true
  selem_id_alloca := true
  find_selem := fun _ => some (0, 1000)
  set_playback_volume_all := fun _ volume => (0, volume)

/-- A backend with every hook present; its world counts the hook invocations. The
`init` hook succeeds, the volume hooks return 7. -/
def gst_backend : output_module Nat where
  shortname := "gst"
  description := "GStreamer multimedia framework"
  add_options := some fun w => (0, w + 1)
  init := some fun w => (0, w + 1)
  set_uri := some fun _ w => w + 1
  set_next_uri := some fun _ w => w + 1
  play := some fun w => (0, w + 1)
  stop := some fun w => (0, w + 1)
  pause := some fun w => (0, w + 1)
  seek := some fun _ w => (0, w + 1)
  get_position := some fun w => ((0, some (10, 3)), w + 1)
  get_volume := some fun w => ((7, some (1 / 2)), w + 1)
  set_volume := some fun _ w => (7, w + 1)
  get_mute := some fun w => ((0, some 0), w + 1)
  set_mute := some fun _ w => (0, w + 1)

/-- A backend without any hook. -/
def bare_backend : output_module Nat where
  shortname := "bare"
  description := "no capabilities"

/-- A backend whose `init` and `add_options` hooks fail with code 5. -/
def failing_backend : output_module Nat where
  shortname := "broken"
  description := "fails to start"
  add_options := some fun w => (5, w + 1)
  init := some fun w => (5, w + 1)

/-- The state at process start: all statics zero, nothing selected. -/
def initial_state : State Nat where
  world := 0

/-- The state at process start after `gst_backend` has been selected. -/
def gst_selected : State Nat where
  output_module := some gst_backend
  world := 0

/-- The state at process start after `bare_backend` has been selected. -/
def bare_selected : State Nat where
  output_module := some bare_backend
  world := 0

/-- A state with `gst_backend` selected and a mixer of range `mixer_max` that reports the
raw volume `raw`. -/
def mixer_state (mixer_max raw : Int) : State Nat where
  mixer_max := mixer_max
  mixer_handle := true
  mixer_sid := true
  mixer_elem := true
  output_module := some gst_backend
  hw_volume := raw
  world := 0

/-- The state `output_init("gst", NULL)` leaves when called at process start on the
registry holding `gst_backend` alone. -/
def after_gst_init : State Nat :=
  (output_init alsa0 [gst_backend] (some "gst") none initial_state).2

/-- The trace entry of an `add_options` invocation on `m` that returned `r`. -/
def add_options_event {W : Type} (r : Int) (m : output_module W) : Event :=
  Event.hook m.shortname Hook.add_options (some r)

/-- The descriptors of a registry that have an `add_options` hook, in registry order. -/
def with_add_options {W : Type} (modules : List (output_module W)) :
    List (output_module W) :=
  modules.filter (fun m => m.add_options.isSome)

/-- The codes the `add_options` hooks of a registry return when every hook present is
invoked in registry order, the first on world `w` and each later one on the world its
predecessor left. -/
def add_options_codes {W : Type} : List (output_module W) → W → List Int
  | [], _ => []
  | m :: rest, w =>
    match m.add_options with
    | some f => (f w).1 :: add_options_codes rest (f w).2
    | none => add_options_codes rest w

/-- The world left when every `add_options` hook present in a registry has been invoked in
registry order, starting on world `w`. -/
def add_options_world {W : Type} : List (output_module W) → W → W
  | [], w => w
  | m :: rest, w =>
    match m.add_options with
    | some f => add_options_world rest (f w).2
    | none => add_options_world rest w

/-! ## Auxiliary facts -/

theorem init_alsa_none {W : Type} (A : Alsa) (s : State W) :
    init_alsa A none s = (-1, { s with mixer_max := 0 }) := rfl

theorem init_alsa_world {W : Type} (A : Alsa) (mixer_name : Option String) (s : State W) :
    (init_alsa A mixer_name s).2.world = s.world := by
  unfold init_alsa
  cases mixer_name with
  | none => rfl
  | some name =>
    simp only
    split
    · rfl
    · split
      · rfl
      · split <;> rfl

theorem init_alsa_output_module {W : Type} (A : Alsa) (mixer_name : Option String)
    (s : State W) : (init_alsa A mixer_name s).2.output_module = s.output_module := by
  unfold init_alsa
  cases mixer_name with
  | none => rfl
  | some name =>
    simp only
    split
    · rfl
    · split
      · rfl
      · split <;> rfl

theorem find_module_unknown {W : Type} (modules : List (output_module W)) (name : String)
    (h : ∀ m ∈ modules, m.shortname ≠ name) : find_module modules name = none := by
  induction modules with
  | nil => rfl
  | cons m rest ih =>
    have hm : m.shortname ≠ name := h m (List.mem_cons_self _ _)
    have hrest : ∀ x ∈ rest, x.shortname ≠ name := fun x hx => h x (List.mem_cons_of_mem _ hx)
    simp [find_module, hm, ih hrest]

theorem find_module_unique {W : Type} (modules : List (output_module W)) (d : output_module W)
    (hmem : d ∈ modules)
    (huniq : ∀ m ∈ modules, m.shortname = d.shortname → m = d) :
    find_module modules d.shortname = some d := by
  induction modules with
  | nil => cases hmem
  | cons m rest ih =>
    by_cases hm : m.shortname = d.shortname
    · have hmd : m = d := huniq m (List.mem_cons_self _ _) hm
      subst hmd
      simp [find_module]
    · have hd : d ∈ rest := by
        rcases List.mem_cons.mp hmem with h | h
        · exact absurd (by rw [h]) hm
        · exact h
      have hrest : ∀ x ∈ rest, x.shortname = d.shortname → x = d :=
        fun x hx => huniq x (List.mem_cons_of_mem _ hx)
      simp [find_module, hm, ih hd hrest]

/-! ## Dispatch without a backend or without the hook -/

/-- C4: with no backend selected, `output_play`, `output_pause`, `output_stop`,
`output_seek`, `output_get_position`, `output_get_mute` and `output_set_mute` return -1,
`output_set_uri` and `output_set_next_uri` do nothing, and all nine leave the whole state
(active backend, `mixer_max`, backend world, call trace) as it was, so no hook runs. With a
backend selected whose corresponding hook is absent, the seven calls return -1 as well. -/
theorem dispatch_unavailable {W : Type} (s : State W) (uri : String) (position value : Int) :
    (s.output_module = none →
      output_play s = (-1, s) ∧ output_pause s = (-1, s) ∧ output_stop s = (-1, s) ∧
      output_seek position s = (-1, s) ∧ output_get_position s = ((-1, none), s) ∧
      output_get_mute s = ((-1, none), s) ∧ output_set_mute value s = (-1, s) ∧
      output_set_uri uri s = s ∧ output_set_next_uri uri s = s) ∧
    (∀ m, s.output_module = some m →
      (m.play = none → output_play s = (-1, s)) ∧
      (m.pause = none → output_pause s = (-1, s)) ∧
      (m.stop = none → output_stop s = (-1, s)) ∧
      (m.seek = none → output_seek position s = (-1, s)) ∧
      (m.get_position = none → output_get_position s = ((-1, none), s)) ∧
      (m.get_mute = none → output_get_mute s = ((-1, none), s)) ∧
      (m.set_mute = none → output_set_mute value s = (-1, s))) := by
  constructor
  · intro h
    simp [output_play, output_pause, output_stop, output_seek, output_get_position,
      output_get_mute, output_set_mute, output_set_uri, output_set_next_uri, h]
  · intro m hm
    refine ⟨?_, ?_, ?_, ?_, ?_, ?_, ?_⟩ <;> intro h
    · simp [output_play, hm, h]
    · simp [output_pause, hm, h]
    · simp [output_stop, hm, h]
    · simp [output_seek, hm, h]
    · simp [output_get_position, hm, h]
    · simp [output_get_mute, hm, h]
    · simp [output_set_mute, hm, h]

/-- C4 at process start (nothing selected) and with the hookless backend selected. -/
theorem dispatch_unavailable_witness :
    (output_play initial_state = (-1, initial_state) ∧
      output_set_uri "http://host/track.flac" initial_state = initial_state) ∧
    output_pause bare_selected = (-1, bare_selected) :=
  ⟨⟨((dispatch_unavailable initial_state "http://host/track.flac" 0 0).1 rfl).1,
    ((dispatch_unavailable initial_state "http://host/track.flac" 0 0).1 rfl).2.2.2.2.2.2.2.1⟩,
   ((dispatch_unavailable bare_selected "" 0 0).2 bare_backend rfl).2.1 rfl⟩

/-! ## Backend selection -/

/-- C3, as stated, fails after an earlier successful `output_init`: the first call selects
`gst` and returns 0; the second call, with a name no descriptor carries, finds the static
still set, runs the `init` hook of `gst` again and returns its 0, and `gst` stays
active. -/
theorem output_init_unknown_after_success :
    (output_init alsa0 [gst_backend] (some "gst") none initial_state).1 = 0 ∧
    (∀ m ∈ [gst_backend], m.shortname ≠ "doesnotexist") ∧
    (output_init alsa0 [gst_backend] (some "doesnotexist") none after_gst_init).1 = 0 ∧
    (output_init alsa0 [gst_backend] (some "doesnotexist") none
      after_gst_init).2.output_module.isSome = true ∧
    (output_init alsa0 [gst_backend] (some "doesnotexist") none after_gst_init).2.trace =
      [Event.hook "gst" Hook.init (some 0), Event.hook "gst" Hook.init (some 0)] := by
  refine ⟨?_, ?_, ?_, ?_, ?_⟩
  · simp [output_init, init_alsa_none, find_module, gst_backend, invoke]
  · intro m hm
    simp only [List.mem_singleton] at hm
    subst hm
    simp [gst_backend]
  · simp [after_gst_init, output_init, init_alsa_none, find_module, gst_backend, invoke]
  · simp [after_gst_init, output_init, init_alsa_none, find_module, gst_backend, invoke]
  · simp [after_gst_init, output_init, init_alsa_none, find_module, gst_backend, invoke,
      initial_state]

/-- C3 amended: for a name no registered descriptor carries, `output_init(name, NULL)`
never changes the active backend; called while none is active it returns -1, leaves none
active and runs no hook (only `mixer_max` is cleared). -/
theorem output_init_unknown_name {W : Type} (A : Alsa) (modules : List (output_module W))
    (name : String) (s : State W) (hname : ∀ m ∈ modules, m.shortname ≠ name) :
    (output_init A modules (some name) none s).2.output_module = s.output_module ∧
    (s.output_module = none →
      output_init A modules (some name) none s = (-1, { s with mixer_max := 0 })) := by
  have hfind := find_module_unknown modules name hname
  constructor
  · simp only [output_init, init_alsa_none, hfind]
    split
    · rfl
    · cases hs : s.output_module with
      | none => simp
      | some m =>
        simp only
        cases hi : m.init with
        | none => simp [hs]
        | some f => simp [invoke, hs]
  · intro hs
    simp only [output_init, init_alsa_none, hfind]
    split
    · rfl
    · simp [hs]

/-- C3 amended, at process start: the unknown name fails and nothing is selected. -/
theorem output_init_unknown_name_witness :
    (∀ m ∈ [gst_backend, bare_backend], m.shortname ≠ "doesnotexist") ∧
    (output_init alsa0 [gst_backend, bare_backend] (some "doesnotexist") none
      initial_state).2.output_module = initial_state.output_module ∧
    output_init alsa0 [gst_backend, bare_backend] (some "doesnotexist") none initial_state =
      (-1, { initial_state with mixer_max := 0 }) :=
  have h : ∀ m ∈ [gst_backend, bare_backend], m.shortname ≠ "doesnotexist" := by
    intro m hm
    simp only [List.mem_cons, List.mem_singleton, List.not_mem_nil, or_false] at hm
    rcases hm with hm | hm <;> subst hm <;> simp [gst_backend, bare_backend]
  ⟨h, (output_init_unknown_name alsa0 [gst_backend, bare_backend] "doesnotexist"
        initial_state h).1,
      (output_init_unknown_name alsa0 [gst_backend, bare_backend] "doesnotexist"
        initial_state h).2 rfl⟩

/-- C6: when the requested name is the short name of the registered descriptor `d` and of
no other, or the name is absent and `d` is the first descriptor, `output_init` returns
what the `init` hook of `d` returns on the current backend world, 0 when `d` has no such
hook, and `d` is the active backend afterwards whatever that value is. This holds in every
state and for every mixer argument. -/
theorem output_init_selects {W : Type} (A : Alsa) (modules : List (output_module W))
    (shortname alsa_mixer : Option String) (s : State W) (d : output_module W)
    (hsel : (shortname = none ∧ modules.head? = some d) ∨
      (shortname = some d.shortname ∧ d ∈ modules ∧
        ∀ m ∈ modules, m.shortname = d.shortname → m = d)) :
    (output_init A modules shortname alsa_mixer s).2.output_module = some d ∧
    (output_init A modules shortname alsa_mixer s).1 =
      (match d.init with
       | some f => (f s.world).1
       | none => 0) := by
  have hlen : modules.length ≠ 0 := by
    rcases hsel with ⟨_, h⟩ | ⟨_, h, _⟩
    · cases modules with
      | nil => simp at h
      | cons _ _ => simp
    · cases modules with
      | nil => cases h
      | cons _ _ => simp
  have hw := init_alsa_world A alsa_mixer s
  rcases hsel with ⟨hname, hhead⟩ | ⟨hname, hmem, huniq⟩
  · subst hname
    simp only [output_init, hlen, if_false, hhead]
    cases hi : d.init with
    | none => simp
    | some f => simp [invoke, hw]
  · subst hname
    simp only [output_init, hlen, if_false, find_module_unique modules d hmem huniq]
    cases hi : d.init with
    | none => simp
    | some f => simp [invoke, hw]

/-- C6 on a registry of three with a mixer name given: the failing backend is selected by
name, its hook result 5 is returned, and it stays selected. -/
theorem output_init_selects_witness :
    (failing_backend ∈ [gst_backend, failing_backend, bare_backend] ∧
      ∀ m ∈ [gst_backend, failing_backend, bare_backend],
        m.shortname = failing_backend.shortname → m = failing_backend) ∧
    (output_init alsa0 [gst_backend, failing_backend, bare_backend]
      (some failing_backend.shortname) (some "Master")
      initial_state).2.output_module = some failing_backend ∧
    (output_init alsa0 [gst_backend, failing_backend, bare_backend]
      (some failing_backend.shortname) (some "Master") initial_state).1 = 5 :=
  have hmem : failing_backend ∈ [gst_backend, failing_backend, bare_backend] := by simp
  have huniq : ∀ m ∈ [gst_backend, failing_backend, bare_backend],
      m.shortname = failing_backend.shortname → m = failing_backend := by
    intro m hm
    simp only [List.mem_cons, List.mem_singleton, List.not_mem_nil, or_false] at hm
    rcases hm with hm | hm | hm <;> subst hm <;>
      simp [gst_backend, failing_backend, bare_backend]
  have h := output_init_selects alsa0 [gst_backend, failing_backend, bare_backend]
    (some failing_backend.shortname) (some "Master") initial_state failing_backend
    (Or.inr ⟨rfl, hmem, huniq⟩)
  ⟨⟨hmem, huniq⟩, h.1, h.2⟩

/-- C9: on a non-empty registry `output_init(NULL, NULL)` makes the first descriptor the
active backend; `init_alsa` returns -1 before any mixer primitive, so the call adds no ALSA
entry to the trace, leaves the mixer handle as it was, and leaves `mixer_max = 0`. -/
theorem output_init_default_no_mixer {W : Type} (A : Alsa) (modules : List (output_module W))
    (s : State W) (hne : modules ≠ []) :
    (output_init A modules none none s).2.output_module = some (modules.head hne) ∧
    init_alsa A none s = (-1, { s with mixer_max := 0 }) ∧
    (∀ c, Event.alsa c ∈ (output_init A modules none none s).2.trace →
      Event.alsa c ∈ s.trace) ∧
    (output_init A modules none none s).2.mixer_handle = s.mixer_handle ∧
    (output_init A modules none none s).2.mixer_max = 0 := by
  cases modules with
  | nil => exact absurd rfl hne
  | cons d rest =>
    refine ⟨?_, rfl, ?_, ?_, ?_⟩
    all_goals
      simp only [output_init, init_alsa_none, List.length_cons, Nat.succ_ne_zero, if_false,
        List.head?_cons, List.head_cons]
      cases hi : d.init with
      | none => simp
      | some f => simp [invoke]

/-- C9 on the registry `[gst, bare]` at process start. -/
theorem output_init_default_no_mixer_witness :
    [gst_backend, bare_backend] ≠ [] ∧
    (output_init alsa0 [gst_backend, bare_backend] none none
      initial_state).2.output_module = some gst_backend ∧
    (output_init alsa0 [gst_backend, bare_backend] none none initial_state).2.mixer_max = 0 :=
  have hne : [gst_backend, bare_backend] ≠ [] := by simp
  have h := output_init_default_no_mixer alsa0 [gst_backend, bare_backend] initial_state hne
  ⟨hne, h.1, h.2.2.2.2⟩

/-! ## Option registration -/

/-- C5: `output_add_options` has one of two outcomes. Either every `add_options` hook
present in the registry returns 0 when the hooks are invoked in registry order, each on the
world its predecessor left; then the call returns 0 and has invoked exactly these hooks in
that order. Or the registry splits as `pre ++ d :: post` where `d` has the hook `f`, the
hooks present in `pre` were invoked in order and all returned 0, `f` was invoked next and
returned a nonzero code; then the call returns that code and the state is the one `f`
left: no hook of `post` was invoked. Descriptors without the hook are skipped. -/
theorem output_add_options_first_failure {W : Type} (modules : List (output_module W))
    (s : State W) :
    ((∀ c ∈ add_options_codes modules s.world, c = 0) ∧
      output_add_options modules s =
        (0, { s with world := add_options_world modules s.world,
                     trace := s.trace ++
                       (with_add_options modules).map (add_options_event 0) })) ∨
    (∃ pre d post f, modules = pre ++ d :: post ∧ d.add_options = some f ∧
      (∀ c ∈ add_options_codes pre s.world, c = 0) ∧
      (f (add_options_world pre s.world)).1 ≠ 0 ∧
      output_add_options modules s =
        ((f (add_options_world pre s.world)).1,
          { s with world := (f (add_options_world pre s.world)).2,
                   trace := s.trace ++ (with_add_options pre).map (add_options_event 0) ++
                     [add_options_event (f (add_options_world pre s.world)).1 d] })) := by
  induction modules generalizing s with
  | nil =>
    left
    simp [output_add_options, with_add_options, add_options_codes, add_options_world]
  | cons m rest ih =>
    cases hm : m.add_options with
    | none =>
      have hstep : output_add_options (m :: rest) s = output_add_options rest s := by
        simp [output_add_options, hm]
      rw [hstep]
      rcases ih s with ⟨h0, ht⟩ | ⟨pre, d, post, f, hsplit, hd, hpre, hr, ht⟩
      · left
        refine ⟨by simpa [add_options_codes, hm] using h0, ?_⟩
        rw [ht]
        simp [with_add_options, List.filter_cons, hm, add_options_world]
      · right
        refine ⟨m :: pre, d, post, f, by simp [hsplit], hd,
          by simpa [add_options_codes, hm] using hpre,
          by simpa [add_options_world, hm] using hr, ?_⟩
        rw [ht]
        simp [with_add_options, List.filter_cons, hm, add_options_world]
    | some g =>
      by_cases hr : (g s.world).1 = 0
      · have hstep : output_add_options (m :: rest) s =
            output_add_options rest (invoke s m Hook.add_options g).2 := by
          simp [output_add_options, hm, invoke, hr]
        rw [hstep]
        rcases ih (invoke s m Hook.add_options g).2 with
          ⟨h0, ht⟩ | ⟨pre, d, post, f, hsplit, hd, hpre, hr2, ht⟩
        · left
          refine ⟨?_, ?_⟩
          · intro c hc
            simp only [add_options_codes, hm, List.mem_cons] at hc
            rcases hc with hc | hc
            · rw [hc, hr]
            · exact h0 c (by simpa [invoke] using hc)
          · rw [ht]
            simp [invoke, with_add_options, List.filter_cons, hm, add_options_world,
              add_options_event, hr]
        · right
          refine ⟨m :: pre, d, post, f, by simp [hsplit], hd, ?_,
            by simpa [add_options_world, hm, invoke] using hr2, ?_⟩
          · intro c hc
            simp only [add_options_codes, hm, List.mem_cons] at hc
            rcases hc with hc | hc
            · rw [hc, hr]
            · exact hpre c (by simpa [invoke] using hc)
          · rw [ht]
            simp [invoke, with_add_options, List.filter_cons, hm, add_options_world,
              add_options_event, hr]
      · right
        refine ⟨[], m, rest, g, rfl, hm, by simp [add_options_codes],
          by simpa [add_options_world] using hr, ?_⟩
        simp [output_add_options, hm, invoke, hr, with_add_options, add_options_world,
          add_options_event]

/-- C5 on the registry `[bare, gst, broken, gst]` at process start: the hook of `broken`
returns 5 after the hook of `gst` returned 0, so the first outcome is excluded and the call
returns a nonzero code. -/
theorem output_add_options_first_failure_witness :
    (output_add_options [bare_backend, gst_backend, failing_backend, gst_backend]
      initial_state).1 ≠ 0 := by
  rcases output_add_options_first_failure
    [bare_backend, gst_backend, failing_backend, gst_backend] initial_state with
    ⟨hall, _⟩ | ⟨pre, d, post, f, _, _, _, hr, heq⟩
  · have h5 := hall 5 (by
      simp [add_options_codes, bare_backend, gst_backend, failing_backend])
    exact absurd h5 (by decide)
  · rw [heq]
    exact hr

/-- The registry `[bare, gst, broken, gst]` at process start: `bare` is skipped, the hook
of `gst` returns 0, the hook of `broken` returns 5, and the second `gst` entry is never
reached. -/
theorem output_add_options_example :
    (output_add_options [bare_backend, gst_backend, failing_backend, gst_backend]
      initial_state).1 = 5 ∧
    (output_add_options [bare_backend, gst_backend, failing_backend, gst_backend]
      initial_state).2.world = 2 ∧
    (output_add_options [bare_backend, gst_backend, failing_backend, gst_backend]
      initial_state).2.trace =
      [Event.hook "gst" Hook.add_options (some 0),
       Event.hook "broken" Hook.add_options (some 5)] := by
  simp [output_add_options, invoke, bare_backend, gst_backend, failing_backend,
    initial_state]

/-! ## Volume fallback -/

/-- C1 at a failing input: `mixer_max = 0` (the mixer was never initialised) and the
active backend has both volume hooks, each returning 7. `output_get_volume` and
`output_set_volume` return 0, store nothing, and leave the world and the trace untouched:
neither hook is invoked. With nothing selected both return 0 as well, not -1. -/
theorem output_volume_no_fallback :
    gst_selected.mixer_max = 0 ∧
    (output_get_volume libm0 gst_selected).1 = (0, none) ∧
    (output_get_volume libm0 gst_selected).2.trace = [] ∧
    (output_get_volume libm0 gst_selected).2.world = 0 ∧
    (output_set_volume libm0 alsa0 (1 / 2) gst_selected).1 = 0 ∧
    (output_set_volume libm0 alsa0 (1 / 2) gst_selected).2.trace = [] ∧
    (output_set_volume libm0 alsa0 (1 / 2) gst_selected).2.world = 0 ∧
    (output_get_volume libm0 initial_state).1 = (0, none) ∧
    (output_set_volume libm0 alsa0 (1 / 2) initial_state).1 = 0 := by
  simp [output_get_volume, output_set_volume, get_alsa_volume, set_alsa_volume,
    gst_selected, initial_state, float_to_int]

/-! ## Facts about the machine arithmetic -/

theorem round_even_cases (r : ℚ) :
    (round_even r = ⌊r⌋ ∧ 2 * Int.fract r ≤ 1) ∨
    (round_even r = ⌊r⌋ + 1 ∧ 1 ≤ 2 * Int.fract r) := by
  unfold round_even
  split
  · left; exact ⟨rfl, by linarith⟩
  · split
    · right; exact ⟨rfl, by linarith⟩
    · have h : 2 * Int.fract r = 1 := by linarith
      split
      · left; exact ⟨rfl, by linarith⟩
      · right; exact ⟨rfl, by linarith⟩

theorem round_even_error (r : ℚ) : |(round_even r : ℚ) - r| ≤ 1 / 2 := by
  have hf : (⌊r⌋ : ℚ) = r - Int.fract r := by
    have := Int.floor_add_fract r
    linarith
  have h0 := Int.fract_nonneg r
  have h1 := Int.fract_lt_one r
  rw [abs_le]
  rcases round_even_cases r with ⟨h, hfr⟩ | ⟨h, hfr⟩
  · rw [h, hf]
    constructor <;> linarith
  · rw [h]
    push_cast
    rw [hf]
    constructor <;> linarith

theorem round_even_intCast (n : Int) : round_even (n : ℚ) = n := by
  simp [round_even]

theorem round_even_nonneg (r : ℚ) (h : 0 ≤ r) : 0 ≤ round_even r := by
  have hfl : 0 ≤ ⌊r⌋ := Int.floor_nonneg.mpr h
  rcases round_even_cases r with ⟨h1, _⟩ | ⟨h1, _⟩ <;> rw [h1] <;> linarith

theorem fp_ulp_pos (prec : Nat) (emin : Int) (q : ℚ) : 0 < fp_ulp prec emin q := by
  unfold fp_ulp
  exact zpow_pos (by norm_num) _

theorem fp_round_zero (prec : Nat) (emin : Int) : fp_round prec emin 0 = 0 := by
  simp [fp_round, round_even]

theorem fp_round_nonneg (prec : Nat) (emin : Int) (q : ℚ) (h : 0 ≤ q) :
    0 ≤ fp_round prec emin q := by
  unfold fp_round
  have hu := fp_ulp_pos prec emin q
  have hr : 0 ≤ round_even (q / fp_ulp prec emin q) :=
    round_even_nonneg _ (div_nonneg h (le_of_lt hu))
  have hrq : (0 : ℚ) ≤ (round_even (q / fp_ulp prec emin q) : ℚ) := by exact_mod_cast hr
  exact mul_nonneg hrq (le_of_lt hu)

theorem fp_round_error (prec : Nat) (emin : Int) (q : ℚ) :
    |fp_round prec emin q - q| ≤ fp_ulp prec emin q / 2 := by
  have hu := fp_ulp_pos prec emin q
  have he := round_even_error (q / fp_ulp prec emin q)
  have heq : fp_round prec emin q - q =
      ((round_even (q / fp_ulp prec emin q) : ℚ) - q / fp_ulp prec emin q) *
        fp_ulp prec emin q := by
    unfold fp_round
    field_simp
  rw [heq, abs_mul, abs_of_pos hu]
  calc |(round_even (q / fp_ulp prec emin q) : ℚ) - q / fp_ulp prec emin q| *
        fp_ulp prec emin q ≤ 1 / 2 * fp_ulp prec emin q :=
        mul_le_mul_of_nonneg_right he (le_of_lt hu)
    _ = fp_ulp prec emin q / 2 := by ring

theorem fp_ulp_normal (prec : Nat) (emin : Int) (q : ℚ) (h : (2 : ℚ) ^ emin ≤ |q|) :
    fp_ulp prec emin q = 2 ^ (Int.log 2 |q|) * 2 ^ (1 - (prec : Int)) ∧
    (2 : ℚ) ^ (Int.log 2 |q|) ≤ |q| := by
  have hpos : 0 < |q| := lt_of_lt_of_le (zpow_pos (by norm_num) _) h
  have hlog : emin ≤ Int.log 2 |q| := by
    have := (Int.zpow_le_iff_le_log (b := 2) (by norm_num) hpos (x := emin)).mp
      (by exact_mod_cast h)
    exact this
  have hle : ((2 : ℕ) : ℚ) ^ (Int.log 2 |q|) ≤ |q| := Int.zpow_log_le_self (by norm_num) hpos
  constructor
  · unfold fp_ulp fp_exponent
    rw [max_eq_left hlog, ← zpow_add₀ (by norm_num)]
    congr 1
    ring
  · exact_mod_cast hle

theorem fp_round_rel (prec : Nat) (emin : Int) (q : ℚ) (h : (2 : ℚ) ^ emin ≤ |q|) :
    |fp_round prec emin q - q| ≤ 2 ^ (-(prec : Int)) * |q| := by
  obtain ⟨hu, hle⟩ := fp_ulp_normal prec emin q h
  have he := fp_round_error prec emin q
  have hp : (0 : ℚ) < 2 ^ (1 - (prec : Int)) := zpow_pos (by norm_num) _
  have h2 : (2 : ℚ) ^ (1 - (prec : Int)) = 2 * 2 ^ (-(prec : Int)) := by
    rw [sub_eq_add_neg, zpow_add₀ (by norm_num), zpow_one]
  have hp2 : (0 : ℚ) < 2 ^ (-(prec : Int)) := zpow_pos (by norm_num) _
  calc |fp_round prec emin q - q| ≤ fp_ulp prec emin q / 2 := he
    _ = 2 ^ (Int.log 2 |q|) * 2 ^ (-(prec : Int)) := by rw [hu, h2]; ring
    _ ≤ |q| * 2 ^ (-(prec : Int)) := mul_le_mul_of_nonneg_right hle (le_of_lt hp2)
    _ = 2 ^ (-(prec : Int)) * |q| := by ring

theorem fp_round_abs (prec : Nat) (emin : Int) (q : ℚ) :
    |fp_round prec emin q - q| ≤ 2 ^ (-(prec : Int)) * |q| + 2 ^ (emin - (prec : Int)) := by
  by_cases h : (2 : ℚ) ^ emin ≤ |q|
  · have := fp_round_rel prec emin q h
    have hp : (0 : ℚ) < 2 ^ (emin - (prec : Int)) := zpow_pos (by norm_num) _
    linarith
  · by_cases hq : q = 0
    · subst hq
      rw [fp_round_zero]
      have hp : (0 : ℚ) < 2 ^ (emin - (prec : Int)) := zpow_pos (by norm_num) _
      simp
      exact le_of_lt hp
    · have hpos : 0 < |q| := abs_pos.mpr hq
      have hlt : |q| < (2 : ℚ) ^ emin := not_le.mp h
      have hlog : Int.log 2 |q| < emin := by
        have := (Int.lt_zpow_iff_log_lt (b := 2) (by norm_num) hpos (x := emin)).mp
          (by exact_mod_cast hlt)
        exact this
      have hu : fp_ulp prec emin q = 2 ^ (emin - ((prec : Int) - 1)) := by
        unfold fp_ulp fp_exponent
        rw [max_eq_right (le_of_lt hlog)]
      have he := fp_round_error prec emin q
      have h2 : (2 : ℚ) ^ (emin - ((prec : Int) - 1)) = 2 * 2 ^ (emin - (prec : Int)) := by
        rw [show emin - ((prec : Int) - 1) = 1 + (emin - (prec : Int)) by ring,
          zpow_add₀ (by norm_num), zpow_one]
      have hp2 : (0 : ℚ) ≤ 2 ^ (-(prec : Int)) * |q| :=
        mul_nonneg (le_of_lt (zpow_pos (by norm_num) _)) (abs_nonneg _)
      rw [hu, h2] at he
      linarith

theorem fp_round_intCast (prec : Nat) (emin : Int) (n : Int) (hprec : 1 ≤ prec)
    (hemin : emin ≤ 0) (hn : |n| < 2 ^ prec) : fp_round prec emin (n : ℚ) = n := by
  by_cases h0 : n = 0
  · subst h0
    simpa using fp_round_zero prec emin
  · have hpos : (0 : ℚ) < |(n : ℚ)| := abs_pos.mpr (by exact_mod_cast h0)
    have hlt : |(n : ℚ)| < ((2 : ℕ) : ℚ) ^ ((prec : ℕ) : ℤ) := by
      rw [zpow_natCast]
      have : ((|n| : Int) : ℚ) < ((2 ^ prec : Int) : ℚ) := by exact_mod_cast hn
      simpa using this
    have hlog : Int.log 2 |(n : ℚ)| < (prec : Int) :=
      (Int.lt_zpow_iff_log_lt (b := 2) (by norm_num) hpos).mp hlt
    have hprec' : (1 : Int) ≤ (prec : Int) := by exact_mod_cast hprec
    have hexp : fp_exponent emin (n : ℚ) ≤ (prec : Int) - 1 := by
      unfold fp_exponent
      exact max_le (by omega) (by omega)
    obtain ⟨k, hk⟩ : ∃ k : ℕ, (k : Int) = (prec : Int) - 1 - fp_exponent emin (n : ℚ) :=
      ⟨((prec : Int) - 1 - fp_exponent emin (n : ℚ)).toNat, Int.toNat_of_nonneg (by omega)⟩
    have hu : fp_ulp prec emin (n : ℚ) = ((2 : ℚ) ^ k)⁻¹ := by
      unfold fp_ulp
      rw [← zpow_natCast, ← zpow_neg, hk]
      congr 1
      ring
    have hdiv : (n : ℚ) / fp_ulp prec emin (n : ℚ) = ((n * 2 ^ k : Int) : ℚ) := by
      rw [hu]
      push_cast
      field_simp
    unfold fp_round
    rw [hdiv, round_even_intCast, hu]
    push_cast
    field_simp

theorem to_float_zero : to_float 0 = 0 := fp_round_zero 24 (-126)

theorem to_float_nonneg (q : ℚ) (h : 0 ≤ q) : 0 ≤ to_float q :=
  fp_round_nonneg 24 (-126) q h

theorem to_float_intCast (n : Int) (hn : |n| < 2 ^ 24) : to_float (n : ℚ) = n :=
  fp_round_intCast 24 (-126) n (by norm_num) (by norm_num) hn

theorem to_float_upper (q : ℚ) (h : 0 ≤ q) :
    to_float q ≤ q * (1 + 1 / 2 ^ 24) + 1 / 2 ^ 150 := by
  have hr := fp_round_abs 24 (-126) q
  rw [abs_of_nonneg h, abs_le] at hr
  have hu : (2 : ℚ) ^ (-((24 : ℕ) : Int)) = 1 / 2 ^ 24 := by
    rw [zpow_neg, zpow_natCast]
    norm_num
  have ha : (2 : ℚ) ^ ((-126 : Int) - ((24 : ℕ) : Int)) = 1 / 2 ^ 150 := by
    rw [show ((-126 : Int) - ((24 : ℕ) : Int)) = -((150 : ℕ) : Int) by norm_num, zpow_neg,
      zpow_natCast]
    norm_num
  rw [hu, ha] at hr
  unfold to_float
  linarith [hr.2]

theorem to_float_neg_upper (q : ℚ) (h : q ≤ -(1 / 2 ^ 126)) :
    to_float q ≤ q * (1 - 1 / 2 ^ 24) := by
  have hq : q < 0 := lt_of_le_of_lt h (by norm_num)
  have habs : |q| = -q := abs_of_neg hq
  have hr := fp_round_rel 24 (-126) q (by
    rw [habs]
    refine le_trans (le_of_eq ?_) (by linarith : 1 / 2 ^ 126 ≤ -q)
    norm_num [zpow_neg])
  rw [habs, abs_le] at hr
  have hu : (2 : ℚ) ^ (-((24 : ℕ) : Int)) = 1 / 2 ^ 24 := by
    rw [zpow_neg, zpow_natCast]
    norm_num
  rw [hu] at hr
  unfold to_float
  linarith [hr.2]

theorem wrap_long_of_range (x : Int) (h0 : -2 ^ 63 ≤ x) (h1 : x < 2 ^ 63) :
    wrap_long x = x := by
  unfold wrap_long
  omega

theorem float_to_int_of_nonneg (q : ℚ) (h : 0 ≤ q) : float_to_int q = ⌊q⌋ := by
  simp [float_to_int, h]

theorem get_alsa_db_in_range (mixer_max value : Int) (hmax : 0 < mixer_max)
    (h0 : 0 ≤ value) (hov : value * 60 < 2 ^ 63) :
    get_alsa_db mixer_max value = value * 60 / mixer_max - 60 := by
  unfold get_alsa_db
  have hq0 : 0 ≤ value * 60 / mixer_max := Int.ediv_nonneg (by positivity) (le_of_lt hmax)
  have hq1 : value * 60 / mixer_max ≤ value * 60 :=
    Int.ediv_le_self _ (by positivity)
  rw [wrap_long_of_range (value * 60) (by omega) hov,
    Int.tdiv_eq_ediv (by positivity) (le_of_lt hmax),
    wrap_long_of_range _ (by omega) (by omega)]

theorem get_alsa_db_full (mixer_max : Int) (hmax : 0 < mixer_max)
    (hov : mixer_max * 60 < 2 ^ 63) : get_alsa_db mixer_max mixer_max = 0 := by
  rw [get_alsa_db_in_range mixer_max mixer_max hmax (le_of_lt hmax) hov,
    Int.mul_ediv_cancel_left _ (ne_of_gt hmax)]
  norm_num

theorem get_alsa_db_below (mixer_max value : Int) (hmax : 0 < mixer_max) (h0 : 0 ≤ value)
    (hlt : value < mixer_max) (hov : mixer_max * 60 < 2 ^ 63) :
    -60 ≤ get_alsa_db mixer_max value ∧ get_alsa_db mixer_max value ≤ -1 := by
  rw [get_alsa_db_in_range mixer_max value hmax h0 (by omega)]
  have h : value * 60 / mixer_max < 60 := Int.ediv_lt_of_lt_mul hmax (by linarith)
  have hq0 : 0 ≤ value * 60 / mixer_max := Int.ediv_nonneg (by positivity) (le_of_lt hmax)
  constructor <;> omega

theorem get_alsa_volume_nonneg {W : Type} (L : Libm) (hL : LibmSpec L) (s : State W) :
    0 ≤ (get_alsa_volume L s).1 := by
  unfold get_alsa_volume
  split
  · simp
  · simp only
    split
    · simp
    · exact to_float_nonneg _ (hL.pow_nonneg _)

theorem get_alsa_volume_state {W : Type} (L : Libm) (s : State W) :
    (get_alsa_volume L s).2 =
      if s.mixer_max ≤ 0 then s else s.log [Event.alsa AlsaCall.get_playback_volume] := by
  unfold get_alsa_volume
  split
  · rfl
  · simp only
    split <;> rfl

theorem get_alsa_volume_value {W : Type} (L : Libm) (s : State W) (hmax : 0 < s.mixer_max)
    (hdb : |get_alsa_db s.mixer_max s.hw_volume| < 2 ^ 24) :
    (get_alsa_volume L s).1 =
      if get_alsa_db s.mixer_max s.hw_volume ≤ -60 then 0
      else to_float (L.pow 10
        (to_float (((get_alsa_db s.mixer_max s.hw_volume : Int) : ℚ) / 20))) := by
  simp only [get_alsa_volume, not_le.mpr hmax, if_false, to_float_intCast _ hdb]
  by_cases h : get_alsa_db s.mixer_max s.hw_volume ≤ -60
  · have hq : ((get_alsa_db s.mixer_max s.hw_volume : Int) : ℚ) ≤ -60 := by exact_mod_cast h
    simp [h, hq]
  · have hq : ¬ ((get_alsa_db s.mixer_max s.hw_volume : Int) : ℚ) ≤ -60 := by
      intro hc
      exact h (by exact_mod_cast hc)
    simp [h, hq]

theorem get_alsa_volume_full {W : Type} (L : Libm) (hL : LibmSpec L) (s : State W)
    (hmax : 0 < s.mixer_max) (hov : s.mixer_max * 60 < 2 ^ 63)
    (hraw : s.hw_volume = s.mixer_max) : (get_alsa_volume L s).1 = 1 := by
  have hdb : get_alsa_db s.mixer_max s.hw_volume = 0 := by
    rw [hraw]
    exact get_alsa_db_full _ hmax hov
  rw [get_alsa_volume_value L s hmax (by rw [hdb]; norm_num), hdb]
  have h1 : to_float (1 : ℚ) = 1 := by
    have := to_float_intCast 1 (by norm_num)
    simpa using this
  norm_num [to_float_zero, hL.pow_zero, h1]

theorem get_alsa_volume_below {W : Type} (L : Libm) (hL : LibmSpec L) (s : State W)
    (hmax : 0 < s.mixer_max) (hov : s.mixer_max * 60 < 2 ^ 63) (h0 : 0 ≤ s.hw_volume)
    (hlt : s.hw_volume < s.mixer_max) : (get_alsa_volume L s).1 < 1 := by
  obtain ⟨hlo, hhi⟩ := get_alsa_db_below s.mixer_max s.hw_volume hmax h0 hlt hov
  rw [get_alsa_volume_value L s hmax (by rw [abs_lt]; constructor <;> omega)]
  split
  · norm_num
  · have hq : ((get_alsa_db s.mixer_max s.hw_volume : Int) : ℚ) ≤ -1 := by exact_mod_cast hhi
    have hx := to_float_neg_upper
      (((get_alsa_db s.mixer_max s.hw_volume : Int) : ℚ) / 20)
      (by
        have e : (1 : ℚ) / 2 ^ 126 ≤ 1 / 20 := by norm_num
        linarith)
    have hx2 : to_float (((get_alsa_db s.mixer_max s.hw_volume : Int) : ℚ) / 20) ≤
        -1 / 32 := by
      have e : ((get_alsa_db s.mixer_max s.hw_volume : Int) : ℚ) / 20 * (1 - 1 / 2 ^ 24) ≤
          -1 / 20 * (1 - 1 / 2 ^ 24) :=
        mul_le_mul_of_nonneg_right (by linarith) (by norm_num)
      have e2 : (-1 : ℚ) / 20 * (1 - 1 / 2 ^ 24) ≤ -1 / 32 := by norm_num
      linarith
    have hp := hL.pow_le _ hx2
    have hp0 := hL.pow_nonneg
      (to_float (((get_alsa_db s.mixer_max s.hw_volume : Int) : ℚ) / 20))
    have hv := to_float_upper _ hp0
    have e : L.pow 10 (to_float (((get_alsa_db s.mixer_max s.hw_volume : Int) : ℚ) / 20)) *
        (1 + 1 / 2 ^ 24) ≤ 15 / 16 * (1 + 1 / 2 ^ 24) :=
      mul_le_mul_of_nonneg_right hp (by norm_num)
    have e2 : (15 : ℚ) / 16 * (1 + 1 / 2 ^ 24) + 1 / 2 ^ 150 < 1 := by norm_num
    linarith

theorem libm0_spec : LibmSpec libm0 where
  pow_zero := by simp [libm0]
  pow_nonneg := by
    intro x
    simp only [libm0]
    exact le_of_lt (zpow_pos (by norm_num) _)
  pow_le_one := by
    intro x hx
    simp only [libm0]
    have hfl : ⌊x⌋ ≤ 0 := by
      have : ⌊x⌋ < 1 := Int.floor_lt.mpr (by push_cast; linarith)
      omega
    calc (10 : ℚ) ^ ⌊x⌋ ≤ 10 ^ (0 : Int) := zpow_le_zpow_right₀ (by norm_num) hfl
      _ = 1 := by norm_num
  pow_le := by
    intro x hx
    simp only [libm0]
    have hfl : ⌊x⌋ ≤ -1 := by
      have : ⌊x⌋ < 0 := Int.floor_lt.mpr (by push_cast; linarith)
      omega
    calc (10 : ℚ) ^ ⌊x⌋ ≤ 10 ^ (-1 : Int) := zpow_le_zpow_right₀ (by norm_num) hfl
      _ ≤ 15 / 16 := by norm_num

/-! ## What `output_get_volume` delivers -/

/-- C10, as stated, fails when `raw*60` leaves the range of `long`: on a mixer of range
`2*10^17` that reports raw `2*10^17` (equal to `mixer_max`) the product wraps to a negative
number, the level decoded is -92 and `output_get_volume` returns 0, not 1. -/
theorem output_get_volume_long_overflow :
    (mixer_state 200000000000000000 200000000000000000).hw_volume =
      (mixer_state 200000000000000000 200000000000000000).mixer_max ∧
    get_alsa_db 200000000000000000 200000000000000000 = -92 ∧
    (output_get_volume libm0 (mixer_state 200000000000000000 200000000000000000)).1.1 = 0 := by
  have hdb : get_alsa_db 200000000000000000 200000000000000000 = -92 := by decide
  refine ⟨rfl, hdb, ?_⟩
  have hmax : 0 < (mixer_state 200000000000000000 200000000000000000).mixer_max := by decide
  have hval := get_alsa_volume_value libm0
    (mixer_state 200000000000000000 200000000000000000) hmax (by rw [abs_lt]; decide)
  have hdb2 : get_alsa_db (mixer_state 200000000000000000 200000000000000000).mixer_max
      (mixer_state 200000000000000000 200000000000000000).hw_volume = -92 := hdb
  rw [hdb2] at hval
  simp [output_get_volume, hval, float_to_int]

/-- C10 amended: in every state `output_get_volume` stores nothing through its pointer
argument and invokes no backend hook (world and active backend unchanged, the trace gains
only the mixer read when `mixer_max > 0`). For `mixer_max > 0` with `mixer_max*60` in the
range of `long` and a reported raw volume in `[0, mixer_max]`, its result is the value of
`get_alsa_volume` converted to `int`: 1 when the raw volume equals `mixer_max` and 0
otherwise. For `mixer_max <= 0` it is 0. -/
theorem output_get_volume_result {W : Type} (L : Libm) (hL : LibmSpec L) (s : State W) :
    (output_get_volume L s).1.2 = none ∧
    (output_get_volume L s).2.world = s.world ∧
    (output_get_volume L s).2.output_module = s.output_module ∧
    (output_get_volume L s).2.trace =
      s.trace ++ (if s.mixer_max ≤ 0 then [] else [Event.alsa AlsaCall.get_playback_volume]) ∧
    (0 < s.mixer_max → s.mixer_max * 60 < 2 ^ 63 → 0 ≤ s.hw_volume →
      s.hw_volume ≤ s.mixer_max →
      (output_get_volume L s).1.1 = float_to_int (get_alsa_volume L s).1 ∧
      (output_get_volume L s).1.1 = if s.hw_volume = s.mixer_max then 1 else 0) ∧
    (s.mixer_max ≤ 0 → (output_get_volume L s).1.1 = 0) := by
  have hnn := get_alsa_volume_nonneg L hL s
  have hout : output_get_volume L s =
      ((float_to_int (get_alsa_volume L s).1, none), (get_alsa_volume L s).2) := by
    simp [output_get_volume, hnn]
  rw [hout, get_alsa_volume_state]
  refine ⟨rfl, ?_, ?_, ?_, ?_, ?_⟩
  · split <;> rfl
  · split <;> rfl
  · split <;> simp [State.log]
  · intro hmax hov h0 hle
    refine ⟨rfl, ?_⟩
    by_cases hraw : s.hw_volume = s.mixer_max
    · simp [hraw, get_alsa_volume_full L hL s hmax hov hraw, float_to_int]
    · have hlt : s.hw_volume < s.mixer_max := lt_of_le_of_ne hle hraw
      have h1 := get_alsa_volume_below L hL s hmax hov h0 hlt
      simp only [hraw, if_false]
      rw [float_to_int_of_nonneg _ hnn, Int.floor_eq_zero_iff]
      exact ⟨hnn, h1⟩
  · intro hmax
    simp [get_alsa_volume, hmax, float_to_int]

/-- C10 amended on a mixer of range 1000: raw 1000 gives 1, raw 999 gives 0, and neither
read reaches the `get_volume` hook of the selected backend. -/
theorem output_get_volume_result_witness :
    (output_get_volume libm0 (mixer_state 1000 1000)).1.1 = 1 ∧
    (output_get_volume libm0 (mixer_state 1000 999)).1.1 = 0 ∧
    (output_get_volume libm0 (mixer_state 1000 999)).1.2 = none ∧
    (output_get_volume libm0 (mixer_state 1000 999)).2.world = 0 ∧
    (output_get_volume libm0 (mixer_state 0 0)).1.1 = 0 :=
  ⟨((output_get_volume_result libm0 libm0_spec (mixer_state 1000 1000)).2.2.2.2.1
      (by decide) (by decide) (by decide) (by decide)).2,
   ((output_get_volume_result libm0 libm0_spec (mixer_state 1000 999)).2.2.2.2.1
      (by decide) (by decide) (by decide) (by decide)).2,
   (output_get_volume_result libm0 libm0_spec (mixer_state 1000 999)).1,
   (output_get_volume_result libm0 libm0_spec (mixer_state 1000 999)).2.1,
   (output_get_volume_result libm0 libm0_spec (mixer_state 0 0)).2.2.2.2.2 (by decide)⟩

/-! ## Get-side decoding -/

/-- C8 at a failing input: on a mixer of range 1000 the raw volumes 1 and 16 are positive,
and the exact `raw*60/1000 - 60` lies above -60 for both, yet the integer division turns
both quotients into 0, `db` is -60 and `get_alsa_volume` returns 0. -/
theorem get_alsa_volume_whole_decibels :
    get_alsa_db 1000 1 = -60 ∧ (get_alsa_volume libm0 (mixer_state 1000 1)).1 = 0 ∧
    ¬ ((1 : ℚ) * 60 / 1000 - 60 ≤ -60) ∧
    get_alsa_db 1000 16 = -60 ∧ (get_alsa_volume libm0 (mixer_state 1000 16)).1 = 0 ∧
    ¬ ((16 : ℚ) * 60 / 1000 - 60 ≤ -60) := by
  have h1 : get_alsa_db 1000 1 = -60 := by decide
  have h16 : get_alsa_db 1000 16 = -60 := by decide
  have e1 : get_alsa_db (mixer_state 1000 1).mixer_max (mixer_state 1000 1).hw_volume =
      -60 := h1
  have e16 : get_alsa_db (mixer_state 1000 16).mixer_max (mixer_state 1000 16).hw_volume =
      -60 := h16
  refine ⟨h1, ?_, by norm_num, h16, ?_, by norm_num⟩
  · rw [get_alsa_volume_value libm0 (mixer_state 1000 1) (by decide)
      (by rw [e1]; norm_num), e1]
    simp
  · rw [get_alsa_volume_value libm0 (mixer_state 1000 16) (by decide)
      (by rw [e16]; norm_num), e16]
    simp

/-! ## Set-side encoding -/

end Output
